import Mathlib

/-!
Verification of the ScreenshotTool repository (`web_run.py`, `client.py`).

The server (`web_run.py`) stores uploaded images on a filesystem, one
directory per user under a root `uploads` directory, and keeps a global
"last update" wall-clock timestamp.  The client (`client.py`) turns mouse
press/release events into screenshot triggers.

We embed the relevant functions shallowly:

* the filesystem is a list of user directories, each a list of named files
  with byte content (`FS`);
* wall-clock time (`datetime.now()` on the server, `time.time()` on the
  client) is passed in explicitly as a parameter at every call that reads
  the clock; two successive reads may return the same value (coarse clock)
  or any other value — nothing is assumed about the clock;
* the server's mutable `AppState` becomes the `last_update_time` field of
  `ServerState`;
* I/O failure during the upload's file write (`shutil.copyfileobj`) is
  injected through an explicit `failAfter` parameter: `some k` means the
  write raises after `k` bytes reached the destination file, `none` means
  the write completes.
-/

/-- Byte content of a file. -/
abbrev Bytes := List Nat

/-- A file in a user's directory: its name (as returned by `os.listdir`,
hence never containing a path separator in reality) and its content. -/
structure FSFile where
  name : String
  content : Bytes
deriving DecidableEq

/-- The server's storage: the `uploads` root, one directory per user.
`os.listdir` order is the list order. -/
structure FS where
  users : List (String × List FSFile)
deriving DecidableEq

/-- The constant `UPLOAD_DIR = "uploads"` of `web_run.py`. -/
def UPLOAD_DIR : String := "uploads"

/-- The sentinel `ALL_USERS_OPTION = "所有用户"` of `web_run.py`. -/
def ALL_USERS_OPTION : String := "所有用户"

/-- Model of `os.path.join(a, b)` for the simple relative names used by the code. -/
def joinPath (a b : String) : String := a ++ "/" ++ b

/-- Index of the last occurrence of `c`, if any. -/
def lastIdxOf (c : Char) : List Char → Option Nat
  | [] => none
  | a :: as =>
    match lastIdxOf c as with
    | some i => some (i + 1)
    | none => if a = c then some 0 else none

/-- Model of `os.path.basename`: the part of the path after the last `/`. -/
def basename (s : String) : String :=
  match lastIdxOf '/' s.data with
  | none => s
  | some i => String.mk (s.data.drop (i + 1))

/-- Python `s.startswith(pat)`: `pat` is an initial segment of `s`
(character-wise; all strings involved are ASCII). -/
def beginsWith : List Char → List Char → Bool
  | [], _ => true
  | _ :: _, [] => false
  | a :: pat, b :: s => a = b && beginsWith pat s

/-- Python `s.lower()`, character-wise. -/
def lowerStr (s : String) : String := String.mk (s.data.map Char.toLower)

/-- The extension part of `os.path.splitext(f)` for a name `f` without path
separators: the suffix starting at the last dot, except that a name whose
characters before that dot are all dots (e.g. `".bashrc"`, `"..."`) has no
extension. -/
def splitextExt (s : String) : String :=
  match lastIdxOf '.' s.data with
  | none => ""
  | some i =>
    if (s.data.take i).any (fun a => a ≠ '.') then String.mk (s.data.drop i)
    else ""

/-- The suffix of a filename starting at its last dot (`""` when the name
has no dot): the everyday notion of "the extension of `originalFilename`"
used when stating C9 (unlike `splitextExt`, no special case for leading
dots). -/
def rawExt (s : String) : String :=
  match lastIdxOf '.' s.data with
  | none => ""
  | some i => String.mk (s.data.drop i)

/-- The `image_extensions` set of `get_user_images`. -/
def image_extensions : List String := [".jpg", ".jpeg", ".png", ".gif", ".bmp", ".webp"]

/-- Well-formedness of the storage model: no file name contains a path
separator (true of anything `os.listdir` can return). -/
def FS.wf (fs : FS) : Bool :=
  fs.users.all (fun q => q.2.all (fun f => f.name.data.all (fun c => c ≠ '/')))

/-- Server state: the filesystem plus `AppState._last_update_time`
(a wall-clock instant, modelled as a natural-number tick). -/
structure ServerState where
  fs : FS
  last_update_time : Nat
deriving DecidableEq

/-- Model of `AppState.mark_updated`: store the current wall-clock reading `now`
(`datetime.now()`).  The clock is a parameter: nothing forces `now` to be
larger than the previously stored value. -/
def mark_updated (st : ServerState) (now : Nat) : ServerState :=
  { st with last_update_time := now }

/-- The comparison performed by `check_for_updates`:
`app_state.last_update_time > last_known_update`. -/
def hasChangedSince (st : ServerState) (last_known_update : Nat) : Bool :=
  decide (last_known_update < st.last_update_time)

/-- Directory lookup (`os.path.isdir` / `os.path.exists` on a user dir): the
directory of user `u`, if present.  Real directories have unique names, so
`find?` returning the first match is faithful. -/
def lookupDir (fs : FS) (u : String) : Option (List FSFile) :=
  (fs.users.find? (fun p => p.1 = u)).map Prod.snd

/-- Model of `get_all_users`: the user directory names, sorted ascending
(`sorted(users)`). -/
def get_all_users (fs : FS) : List String :=
  (fs.users.map Prod.fst).insertionSort (fun a b => a ≤ b)

/-- The body of the per-user loop of `get_user_images`: the paths
`os.path.join(UPLOAD_DIR, u, f)` of the files of `u` whose lower-cased
`splitext` extension is in `image_extensions`. -/
def userImagePaths (fs : FS) (u : String) : List String :=
  match lookupDir fs u with
  | some dir =>
    (dir.filter (fun f => decide (lowerStr (splitextExt f.name) ∈ image_extensions))).map
      (fun f => joinPath (joinPath UPLOAD_DIR u) f.name)
  | none => []

/-- The descending-by-basename order used by
`sorted(image_paths, key=os.path.basename, reverse=True)`. -/
def descByBasename (a b : String) : Prop := basename b ≤ basename a

instance : DecidableRel descByBasename := fun a b =>
  inferInstanceAs (Decidable (basename b ≤ basename a))

instance : IsTotal String descByBasename :=
  ⟨fun a b => (le_total (basename b) (basename a)).elim Or.inl Or.inr⟩

instance : IsTrans String descByBasename :=
  ⟨fun _ _ _ hab hbc => le_trans hbc hab⟩

/-- Model of `get_user_images(username)`: collect image paths (all users, or one
user, or nothing for the empty name), then sort by basename descending.
Python's `sorted` is a stable sort; `List.insertionSort` is also stable, and
for the total ordering used here any sort produces the same sorted
permutation. -/
def get_user_images (fs : FS) (username : String) : List String :=
  let image_paths : List String :=
    if username = ALL_USERS_OPTION then
      (get_all_users fs).flatMap (fun u => userImagePaths fs u)
    else if username ≠ "" then userImagePaths fs username
    else []
  image_paths.insertionSort descByBasename

/-- Model of `shutil.rmtree` on a user directory: remove the whole subtree. -/
def fsRemoveUser (fs : FS) (u : String) : FS :=
  ⟨fs.users.filter (fun p => p.1 ≠ u)⟩

/-- Model of `delete_user_images(username)`, together with its effect on the server
state.  `now` is the wall-clock reading `mark_updated` would store.  The
model's `rmtree` always succeeds on an existing directory (the pure
filesystem has no I/O faults), so the `except` branch is unreachable. -/
def delete_user_images (st : ServerState) (now : Nat) (username : String) :
    Bool × ServerState :=
  if username = "" ∨ username = ALL_USERS_OPTION then (false, st)
  else
    match lookupDir st.fs username with
    | none => (false, st)
    | some _ => (true, mark_updated { st with fs := fsRemoveUser st.fs username } now)

/-- Model of `os.makedirs(user_dir, exist_ok=True)`: create the user directory if
absent. -/
def fsMakedirs (fs : FS) (u : String) : FS :=
  if fs.users.any (fun p => p.1 = u) then fs else ⟨fs.users ++ [(u, [])]⟩

/-- Model of `open(filepath, "wb")` followed by writing `content`: truncate/replace
an existing file of that name, else create it. -/
def dirWrite (dir : List FSFile) (name : String) (content : Bytes) : List FSFile :=
  if dir.any (fun f => f.name = name) then
    dir.map (fun f => if f.name = name then ⟨name, content⟩ else f)
  else dir ++ [⟨name, content⟩]

/-- Write `content` into the named file of user `u`'s directory. -/
def fsWrite (fs : FS) (u name : String) (content : Bytes) : FS :=
  ⟨fs.users.map (fun p => if p.1 = u then (p.1, dirWrite p.2 name content) else p)⟩

/-- Content of user `u`'s file `name`, if it exists. -/
def fileContent (fs : FS) (u name : String) : Option Bytes :=
  (lookupDir fs u).bind (fun dir => (dir.find? (fun f => f.name = name)).map FSFile.content)

/-- Outcome of one `POST /api/upload` request. -/
inductive UploadOutcome where
  /-- The `HTTPException(status_code=400, ...)` raised by the content-type check. -/
  | badRequest (detail : String)
  /-- An I/O exception escaped from the `try` block (FastAPI surfaces it as
  a 5xx response); the handler itself returns nothing. -/
  | writeError
  /-- The `JSONResponse(status_code=201, content={"message": ...,
  "server_path": ...})` of the success path. -/
  | success (status : Nat) (message server_path : String)
deriving DecidableEq

/-- Whether the outcome is the 400 content-type rejection. -/
def UploadOutcome.isBadRequest : UploadOutcome → Bool
  | .badRequest _ => true
  | _ => false

/-- The full effect of one `api_upload_image` call. -/
structure IngestOutput where
  outcome : UploadOutcome
  state : ServerState
  /-- whether the handler closed `image.file` (the `finally` block). -/
  fileClosed : Bool
deriving DecidableEq

/-- Model of `api_upload_image`.  Parameters: `now` is the `datetime.now()` reading
`mark_updated` would store; `server_timestamp` is the already-formatted
`strftime("%Y%m%d_%H%M%S%f")` string; `contentType` and `origFilename` come
from the multipart `image` field; `failAfter = some k` injects an I/O
failure in `shutil.copyfileobj` after `k` bytes reached the destination
file (the code writes straight to the final path, so those bytes stay
there); the exception skips `mark_updated`, runs the `finally` close, and
propagates.  The 400 path raises before the `try`, so the handler closes
nothing there. -/
def api_upload_image (st : ServerState) (now : Nat) (server_timestamp : String)
    (username contentType origFilename : String) (content : Bytes)
    (failAfter : Option Nat) : IngestOutput :=
  if ¬ beginsWith "image/".data contentType.data then
    { outcome := .badRequest "文件类型错误，请上传图片。", state := st, fileClosed := false }
  else
    let fs1 := fsMakedirs st.fs username
    let filename := server_timestamp ++ "_" ++ origFilename
    let filepath := joinPath (joinPath UPLOAD_DIR username) filename
    match failAfter with
    | some k =>
      { outcome := .writeError,
        state := { st with fs := fsWrite fs1 username filename (content.take k) },
        fileClosed := true }
    | none =>
      { outcome := .success 201 "图片上传成功" filepath,
        state := mark_updated { st with fs := fsWrite fs1 username filename content } now,
        fileClosed := true }

/-! ## Client: the gesture detector of `client.py` -/

/-- Client time (`time.time()`), modelled as a rational. -/
abbrev Time := ℚ

/-- The mouse buttons `pynput` can report. -/
inductive MouseButton where
  | left
  | right
  | middle
deriving DecidableEq

/-- The `config` dictionary fields read by the click handler. -/
structure ClientConfig where
  username : String
  click_time : Time

/-- The detector's only mutable state: `left_button_press_time`. -/
structure DetectorState where
  left_button_press_time : Option Time
deriving DecidableEq

/-- One `on_click(x, y, button, pressed)` callback.  `cfg` is the `config`
dictionary as it stands at the moment of this event (the code reads
`config['click_time']` inside the handler, not a cached copy), `now` is
`time.time()` at the event.  Returns the new state and the number of
screenshot threads started (`Trigger` emissions). -/
def on_click (cfg : ClientConfig) (st : DetectorState) (now : Time)
    (button : MouseButton) (pressed : Bool) : DetectorState × Nat :=
  if button = MouseButton.left then
    if pressed then ({ left_button_press_time := some now }, 0)
    else
      match st.left_button_press_time with
      | some t =>
        let hold_duration := now - t
        if hold_duration ≥ cfg.click_time then ({ left_button_press_time := none }, 1)
        else ({ left_button_press_time := none }, 0)
      | none => (st, 0)
  else (st, 0)

/-! ## Claims about the gesture detector -/

/-- C3: a press at time `t` followed by a release at time `t + d` emits
exactly one `Trigger` when `d` is at least the `click_time` threshold read
from the configuration at the moment of release (the boundary `d =
threshold` triggers), and exactly zero otherwise; the configuration in
force at press time is irrelevant. -/
theorem C3_hold_threshold_at_release (cfgPress cfgRelease : ClientConfig)
    (st0 : DetectorState) (t d : Time) :
    (on_click cfgPress st0 t MouseButton.left true).2 = 0 ∧
    (on_click cfgRelease (on_click cfgPress st0 t MouseButton.left true).1 (t + d)
        MouseButton.left false).2 =
      (if cfgRelease.click_time ≤ d then 1 else 0) := by
  refine ⟨by simp [on_click], ?_⟩
  simp only [on_click, if_pos rfl, if_pos, reduceCtorEq, ge_iff_le]
  rw [add_sub_cancel_left]
  by_cases h : cfgRelease.click_time ≤ d <;> simp [h]

/-- C7: a release while no press is pending (`left_button_press_time`
unset) leaves the state unchanged and emits no `Trigger`. -/
theorem C7_release_without_press (cfg : ClientConfig) (now : Time) :
    on_click cfg ⟨none⟩ now MouseButton.left false = (⟨none⟩, 0) := by
  simp [on_click]

/-- C8: a second press before any release overwrites the pending press
timestamp, and only the most recent press's time governs whether the
subsequent release triggers. -/
theorem C8_second_press_overwrites (cfg1 cfg2 cfg3 : ClientConfig)
    (st0 : DetectorState) (t1 t2 t3 : Time) :
    ((on_click cfg2 (on_click cfg1 st0 t1 MouseButton.left true).1 t2
        MouseButton.left true).1).left_button_press_time = some t2 ∧
    (on_click cfg3 (on_click cfg2 (on_click cfg1 st0 t1 MouseButton.left true).1 t2
        MouseButton.left true).1 t3 MouseButton.left false).2 =
      (if cfg3.click_time ≤ t3 - t2 then 1 else 0) := by
  refine ⟨by simp [on_click], ?_⟩
  simp only [on_click, if_pos rfl, ge_iff_le]
  by_cases h : cfg3.click_time ≤ t3 - t2 <;> simp [h]

/-! ## Claims about the server -/

/-- C1: the claim fails on the code.  `mark_updated` stores the wall-clock
reading and `check_for_updates` compares with strict `>`, so a mutation
that commits in the same clock tick as the version a reader observed is
invisible: here a reader observes version `5`, `delete_user_images`
commits (returns `true`) while the clock still reads `5`, and
`hasChangedSince 5` is `false` afterwards, although the claim requires a
strictly greater version and `hasChangedSince = true`. -/
theorem C1_same_tick_mutation_invisible :
    (delete_user_images ⟨⟨[("alice", [⟨"a.png", [1]⟩])]⟩, 5⟩ 5 "alice").1 = true ∧
    hasChangedSince (delete_user_images ⟨⟨[("alice", [⟨"a.png", [1]⟩])]⟩, 5⟩ 5 "alice").2 5
      = false := by
  decide

/-- C2: the claim fails on the code.  `api_upload_image` opens the final
destination path directly (no temporary name, no rename), so when the copy
raises after one byte, the exception propagates (`writeError`, surfaced as
a 5xx, not a structured `StorageWriteFailed` value) and the destination
file remains with content `[7]`, a proper prefix of the uploaded bytes
`[7, 8, 9]` — and `get_user_images` returns its path. -/
theorem C2_partial_write_visible :
    (api_upload_image ⟨⟨[]⟩, 0⟩ 1 "20240101" "alice" "image/png" "a.png"
        [7, 8, 9] (some 1)).outcome = UploadOutcome.writeError ∧
    get_user_images (api_upload_image ⟨⟨[]⟩, 0⟩ 1 "20240101" "alice" "image/png" "a.png"
        [7, 8, 9] (some 1)).state.fs "alice" = ["uploads/alice/20240101_a.png"] ∧
    fileContent (api_upload_image ⟨⟨[]⟩, 0⟩ 1 "20240101" "alice" "image/png" "a.png"
        [7, 8, 9] (some 1)).state.fs "alice" "20240101_a.png" =
      some (List.take 1 [7, 8, 9]) ∧
    List.take 1 [7, 8, 9] ≠ [7, 8, 9] := by
  decide

theorem fsMakedirs_any (fs : FS) (u : String) :
    (fsMakedirs fs u).users.any (fun p => p.1 = u) = true := by
  unfold fsMakedirs
  by_cases h : fs.users.any (fun p => p.1 = u) = true
  · rw [if_pos h]
    exact h
  · simp [h]

theorem dirWrite_find (dir : List FSFile) (name : String) (content : Bytes) :
    (dirWrite dir name content).find? (fun f => f.name = name) = some ⟨name, content⟩ := by
  unfold dirWrite
  by_cases h : dir.any (fun f => f.name = name) = true
  · rw [if_pos h]
    induction dir with
    | nil => simp at h
    | cons f fs ih =>
      by_cases hf : f.name = name
      · simp [List.find?, hf]
      · simp only [List.any_cons, decide_eq_false hf, Bool.false_or] at h
        simp only [List.map_cons, if_neg hf]
        rw [List.find?_cons_of_neg _ (by simpa using hf)]
        exact ih h
  · rw [if_neg h]
    have hnone : dir.find? (fun f => f.name = name) = none := by
      rw [List.find?_eq_none]
      intro f hfm
      simp only [List.any_eq_true] at h
      push_neg at h
      simpa using h f hfm
    rw [List.find?_append, hnone]
    simp [List.find?]

theorem find?_write_list (l : List (String × List FSFile)) (u name : String)
    (content : Bytes) (h : l.any (fun p => p.1 = u) = true) :
    ((l.map (fun p => if p.1 = u then (p.1, dirWrite p.2 name content) else p)).find?
        (fun p => p.1 = u)) =
      some (u, dirWrite ((l.find? (fun p => p.1 = u)).map Prod.snd |>.getD []) name content) := by
  induction l with
  | nil => simp at h
  | cons p ps ih =>
    by_cases hp : p.1 = u
    · subst hp
      simp [List.find?]
    · simp only [List.any_cons, decide_eq_false hp, Bool.false_or] at h
      simp only [List.map_cons, if_neg hp]
      rw [List.find?_cons_of_neg _ (by simpa using hp),
        List.find?_cons_of_neg _ (by simpa using hp)]
      exact ih h

theorem fileContent_fsWrite_self (fs : FS) (u name : String) (content : Bytes)
    (h : fs.users.any (fun p => p.1 = u) = true) :
    fileContent (fsWrite fs u name content) u name = some content := by
  unfold fileContent fsWrite lookupDir
  rw [find?_write_list fs.users u name content h]
  simp [dirWrite_find]

/-- C2 (amended): on a write failure during ingest the exception
propagates out of the handler (`writeError`, surfaced by the framework as
a server error) and `CatalogVersion` is untouched, but the write is not
atomic: a file holding the first `k` bytes of the upload remains at the
final destination path, visible to readers. -/
theorem C2_amended_write_not_atomic (st : ServerState) (now : Nat)
    (ts u ct fn : String) (content : Bytes) (k : Nat)
    (hct : beginsWith "image/".data ct.data = true) :
    (api_upload_image st now ts u ct fn content (some k)).outcome =
      UploadOutcome.writeError ∧
    fileContent (api_upload_image st now ts u ct fn content (some k)).state.fs u
      (ts ++ "_" ++ fn) = some (content.take k) ∧
    (api_upload_image st now ts u ct fn content (some k)).state.last_update_time =
      st.last_update_time := by
  unfold api_upload_image
  rw [if_neg (by simp [hct])]
  refine ⟨rfl, ?_, rfl⟩
  exact fileContent_fsWrite_self _ u _ _ (fsMakedirs_any st.fs u)

/-- Witness for C2 (amended) at a concrete input. -/
theorem C2_amended_write_not_atomic_witness :
    beginsWith "image/".data "image/png".data = true ∧
    (api_upload_image ⟨⟨[]⟩, 3⟩ 9 "20240101" "bob" "image/png" "b.png"
        [4, 5] (some 1)).outcome = UploadOutcome.writeError ∧
    fileContent (api_upload_image ⟨⟨[]⟩, 3⟩ 9 "20240101" "bob" "image/png" "b.png"
        [4, 5] (some 1)).state.fs "bob" ("20240101" ++ "_" ++ "b.png") =
      some (List.take 1 [4, 5]) ∧
    (api_upload_image ⟨⟨[]⟩, 3⟩ 9 "20240101" "bob" "image/png" "b.png"
        [4, 5] (some 1)).state.last_update_time = 3 :=
  ⟨by decide, C2_amended_write_not_atomic ⟨⟨[]⟩, 3⟩ 9 "20240101" "bob" "image/png" "b.png"
    [4, 5] 1 (by decide)⟩

/-- C10: when the write raises during ingest, `mark_updated` is skipped
(the version is unchanged and the error propagates) while the `finally`
block still closes the uploaded file handle; on the success path the
version is set from the clock. -/
theorem C10_write_failure_skips_version_bump (st : ServerState) (now : Nat)
    (ts u ct fn : String) (content : Bytes) (k : Nat)
    (hct : beginsWith "image/".data ct.data = true) :
    (api_upload_image st now ts u ct fn content (some k)).outcome =
      UploadOutcome.writeError ∧
    (api_upload_image st now ts u ct fn content (some k)).state.last_update_time =
      st.last_update_time ∧
    (api_upload_image st now ts u ct fn content (some k)).fileClosed = true ∧
    (api_upload_image st now ts u ct fn content none).state.last_update_time = now := by
  unfold api_upload_image
  rw [if_neg (by simp [hct]), if_neg (by simp [hct])]
  exact ⟨rfl, rfl, rfl, rfl⟩

/-- Witness for C10 at a concrete input. -/
theorem C10_write_failure_skips_version_bump_witness :
    beginsWith "image/".data "image/jpeg".data = true ∧
    (api_upload_image ⟨⟨[]⟩, 2⟩ 8 "t" "carol" "image/jpeg" "c.jpg"
        [1] (some 0)).outcome = UploadOutcome.writeError ∧
    (api_upload_image ⟨⟨[]⟩, 2⟩ 8 "t" "carol" "image/jpeg" "c.jpg"
        [1] (some 0)).state.last_update_time = 2 ∧
    (api_upload_image ⟨⟨[]⟩, 2⟩ 8 "t" "carol" "image/jpeg" "c.jpg"
        [1] (some 0)).fileClosed = true ∧
    (api_upload_image ⟨⟨[]⟩, 2⟩ 8 "t" "carol" "image/jpeg" "c.jpg"
        [1] none).state.last_update_time = 8 :=
  ⟨by decide, C10_write_failure_skips_version_bump ⟨⟨[]⟩, 2⟩ 8 "t" "carol" "image/jpeg"
    "c.jpg" [1] 0 (by decide)⟩

/-- C4: the upload is rejected with the HTTP 400 `badRequest` exactly when
the declared content type does not begin with `image/`; otherwise (when the
write completes) it returns HTTP 201 with the message and `server_path`
JSON fields, having stored the bytes under the user's directory with name
`<serverTimestamp>_<originalFilename>`. -/
theorem C4_content_type_gate_and_success_shape (st : ServerState) (now : Nat)
    (ts u ct fn : String) (content : Bytes) (failAfter : Option Nat) :
    ((api_upload_image st now ts u ct fn content failAfter).outcome.isBadRequest = true ↔
      beginsWith "image/".data ct.data = false) ∧
    (beginsWith "image/".data ct.data = true →
      (api_upload_image st now ts u ct fn content none).outcome =
        UploadOutcome.success 201 "图片上传成功"
          (joinPath (joinPath UPLOAD_DIR u) (ts ++ "_" ++ fn)) ∧
      fileContent (api_upload_image st now ts u ct fn content none).state.fs u
        (ts ++ "_" ++ fn) = some content) := by
  constructor
  · unfold api_upload_image
    cases hct : beginsWith "image/".data ct.data with
    | false =>
      rw [if_pos (by simp [hct])]
      simp [UploadOutcome.isBadRequest]
    | true =>
      rw [if_neg (by simp [hct])]
      cases failAfter with
      | some k => simp [UploadOutcome.isBadRequest]
      | none => simp [UploadOutcome.isBadRequest]
  · intro hct
    unfold api_upload_image
    rw [if_neg (by simp [hct])]
    refine ⟨rfl, ?_⟩
    exact fileContent_fsWrite_self _ u _ _ (fsMakedirs_any st.fs u)

/-- Witness for C4 at a concrete input. -/
theorem C4_content_type_gate_and_success_shape_witness :
    ((api_upload_image ⟨⟨[]⟩, 0⟩ 4 "20240202" "dave" "text/plain" "d.png"
        [9] none).outcome.isBadRequest = true ↔
      beginsWith "image/".data "text/plain".data = false) ∧
    beginsWith "image/".data "image/png".data = true ∧
    (api_upload_image ⟨⟨[]⟩, 0⟩ 4 "20240202" "dave" "image/png" "d.png"
        [9] none).outcome =
      UploadOutcome.success 201 "图片上传成功"
        (joinPath (joinPath UPLOAD_DIR "dave") ("20240202" ++ "_" ++ "d.png")) ∧
    fileContent (api_upload_image ⟨⟨[]⟩, 0⟩ 4 "20240202" "dave" "image/png" "d.png"
        [9] none).state.fs "dave" ("20240202" ++ "_" ++ "d.png") = some [9] :=
  ⟨(C4_content_type_gate_and_success_shape ⟨⟨[]⟩, 0⟩ 4 "20240202" "dave" "text/plain"
      "d.png" [9] none).1,
   by decide,
   (C4_content_type_gate_and_success_shape ⟨⟨[]⟩, 0⟩ 4 "20240202" "dave"
      "image/png" "d.png" [9] none).2 (by decide)⟩

/-- C5: `delete_user_images` returns `false` and leaves the whole server
state (storage and version) unchanged when the user is empty, the
"all users" sentinel, or has no directory; for an existing user it returns
`true`, removes the entire namespace (so no image of that user remains
listed) and applies `mark_updated` exactly once, storing the delete-time
clock reading. -/
theorem C5_delete_user_images_semantics (st : ServerState) (now : Nat) (u : String) :
    ((u = "" ∨ u = ALL_USERS_OPTION ∨ lookupDir st.fs u = none) →
      delete_user_images st now u = (false, st)) ∧
    (u ≠ "" → u ≠ ALL_USERS_OPTION → lookupDir st.fs u ≠ none →
      (delete_user_images st now u).1 = true ∧
      lookupDir (delete_user_images st now u).2.fs u = none ∧
      get_user_images (delete_user_images st now u).2.fs u = [] ∧
      (delete_user_images st now u).2.last_update_time = now) := by
  have hremove : lookupDir (fsRemoveUser st.fs u) u = none := by
    unfold lookupDir fsRemoveUser
    simp only [Option.map_eq_none', List.find?_eq_none, List.mem_filter]
    intro p hp
    simpa using hp.2
  constructor
  · rintro (h | h | h)
    · simp [delete_user_images, h]
    · simp [delete_user_images, h]
    · by_cases he : u = "" ∨ u = ALL_USERS_OPTION
      · simp [delete_user_images, he]
      · simp [delete_user_images, he, h]
  · intro h1 h2 h3
    cases hd : lookupDir st.fs u with
    | none => exact absurd hd h3
    | some d =>
      have hne : ¬ (u = "" ∨ u = ALL_USERS_OPTION) := by
        rintro (h | h) <;> [exact h1 h; exact h2 h]
      have hres : delete_user_images st now u =
          (true, mark_updated { st with fs := fsRemoveUser st.fs u } now) := by
        unfold delete_user_images
        rw [if_neg hne, hd]
      rw [hres]
      refine ⟨rfl, hremove, ?_, rfl⟩
      unfold get_user_images
      rw [if_neg h2, if_pos (by simpa using h1)]
      unfold userImagePaths
      rw [show (true, mark_updated { st with fs := fsRemoveUser st.fs u } now).2.fs =
        fsRemoveUser st.fs u from rfl, hremove]
      rfl

/-- Witness for C5 at concrete inputs: a missing user and the sentinel
leave the state untouched; deleting an existing user succeeds, empties the
namespace and stores the delete-time clock reading. -/
theorem C5_delete_user_images_semantics_witness :
    delete_user_images ⟨⟨[("alice", [⟨"1_a.png", [1]⟩])]⟩, 3⟩ 9 "bob" =
      (false, ⟨⟨[("alice", [⟨"1_a.png", [1]⟩])]⟩, 3⟩) ∧
    delete_user_images ⟨⟨[("alice", [⟨"1_a.png", [1]⟩])]⟩, 3⟩ 9 ALL_USERS_OPTION =
      (false, ⟨⟨[("alice", [⟨"1_a.png", [1]⟩])]⟩, 3⟩) ∧
    (delete_user_images ⟨⟨[("alice", [⟨"1_a.png", [1]⟩])]⟩, 3⟩ 9 "alice").1 = true ∧
    lookupDir (delete_user_images ⟨⟨[("alice", [⟨"1_a.png", [1]⟩])]⟩, 3⟩ 9
      "alice").2.fs "alice" = none ∧
    get_user_images (delete_user_images ⟨⟨[("alice", [⟨"1_a.png", [1]⟩])]⟩, 3⟩ 9
      "alice").2.fs "alice" = [] ∧
    (delete_user_images ⟨⟨[("alice", [⟨"1_a.png", [1]⟩])]⟩, 3⟩ 9
      "alice").2.last_update_time = 9 :=
  ⟨(C5_delete_user_images_semantics ⟨⟨[("alice", [⟨"1_a.png", [1]⟩])]⟩, 3⟩ 9 "bob").1
      (Or.inr (Or.inr (by decide))),
   (C5_delete_user_images_semantics ⟨⟨[("alice", [⟨"1_a.png", [1]⟩])]⟩, 3⟩ 9
      ALL_USERS_OPTION).1 (Or.inr (Or.inl rfl)),
   (C5_delete_user_images_semantics ⟨⟨[("alice", [⟨"1_a.png", [1]⟩])]⟩, 3⟩ 9 "alice").2
      (by decide) (by decide) (by decide)⟩

/-- C6: `get_user_images` with the "all users" sentinel returns a
permutation of the union of every user's image paths, sorted by basename
(`storedName`) descending; for a specific user it returns exactly that
user's image paths in the same descending order. -/
theorem C6_listing_order_and_content (fs : FS) (u : String) :
    (get_user_images fs ALL_USERS_OPTION).Perm
        ((fs.users.map Prod.fst).flatMap (fun v => userImagePaths fs v)) ∧
    List.Sorted descByBasename (get_user_images fs ALL_USERS_OPTION) ∧
    (u ≠ ALL_USERS_OPTION → u ≠ "" →
      (get_user_images fs u).Perm (userImagePaths fs u) ∧
      List.Sorted descByBasename (get_user_images fs u)) := by
  refine ⟨?_, ?_, fun h1 h2 => ⟨?_, ?_⟩⟩
  · unfold get_user_images
    rw [if_pos rfl]
    refine (List.perm_insertionSort _ _).trans ?_
    exact List.Perm.flatMap_right _ (List.perm_insertionSort _ _)
  · unfold get_user_images
    rw [if_pos rfl]
    exact List.sorted_insertionSort _ _
  · unfold get_user_images
    rw [if_neg h1, if_pos (by simpa using h2)]
    exact List.perm_insertionSort _ _
  · unfold get_user_images
    rw [if_neg h1, if_pos (by simpa using h2)]
    exact List.sorted_insertionSort _ _

/-- Witness for C6 at a concrete two-user storage state. -/
theorem C6_listing_order_and_content_witness :
    ("alice" ≠ ALL_USERS_OPTION ∧ "alice" ≠ "") ∧
    (get_user_images ⟨[("bob", [⟨"2_b.png", [1]⟩]), ("alice", [⟨"1_a.png", [2]⟩])]⟩
        ALL_USERS_OPTION).Perm
      (((⟨[("bob", [⟨"2_b.png", [1]⟩]), ("alice", [⟨"1_a.png", [2]⟩])]⟩ : FS)).users.map
          Prod.fst |>.flatMap
        (fun v => userImagePaths ⟨[("bob", [⟨"2_b.png", [1]⟩]), ("alice", [⟨"1_a.png", [2]⟩])]⟩ v)) ∧
    (get_user_images ⟨[("bob", [⟨"2_b.png", [1]⟩]), ("alice", [⟨"1_a.png", [2]⟩])]⟩
        "alice").Perm
      (userImagePaths ⟨[("bob", [⟨"2_b.png", [1]⟩]), ("alice", [⟨"1_a.png", [2]⟩])]⟩ "alice") ∧
    List.Sorted descByBasename
      (get_user_images ⟨[("bob", [⟨"2_b.png", [1]⟩]), ("alice", [⟨"1_a.png", [2]⟩])]⟩
        "alice") :=
  ⟨⟨by decide, by decide⟩,
   (C6_listing_order_and_content
      ⟨[("bob", [⟨"2_b.png", [1]⟩]), ("alice", [⟨"1_a.png", [2]⟩])]⟩ "alice").1,
   (C6_listing_order_and_content
      ⟨[("bob", [⟨"2_b.png", [1]⟩]), ("alice", [⟨"1_a.png", [2]⟩])]⟩ "alice").2.2
     (by decide) (by decide)⟩

theorem lastIdxOf_eq_none {c : Char} {l : List Char} (h : ∀ x ∈ l, x ≠ c) :
    lastIdxOf c l = none := by
  induction l with
  | nil => rfl
  | cons a as ih =>
    unfold lastIdxOf
    rw [ih (fun x hx => h x (List.mem_cons_of_mem a hx))]
    simp [h a (List.mem_cons_self a as)]

theorem lastIdxOf_append_some {c : Char} {l₂ : List Char} {i : Nat} (l₁ : List Char)
    (h : lastIdxOf c l₂ = some i) :
    lastIdxOf c (l₁ ++ l₂) = some (l₁.length + i) := by
  induction l₁ with
  | nil => simp [h]
  | cons a as ih =>
    show lastIdxOf c (a :: (as ++ l₂)) = _
    unfold lastIdxOf
    rw [ih]
    simp [Nat.succ_add]

theorem lastIdxOf_append_none {c : Char} {l₂ : List Char} (l₁ : List Char)
    (h : lastIdxOf c l₂ = none) :
    lastIdxOf c (l₁ ++ l₂) = lastIdxOf c l₁ := by
  induction l₁ with
  | nil =>
    rw [List.nil_append, h]
    rfl
  | cons a as ih =>
    show lastIdxOf c (a :: (as ++ l₂)) = lastIdxOf c (a :: as)
    unfold lastIdxOf
    rw [ih]

theorem drop_append_len {α : Type} (l₁ l₂ : List α) (k : Nat) :
    (l₁ ++ l₂).drop (l₁.length + k) = l₂.drop k := by
  induction l₁ with
  | nil => simp
  | cons a as ih =>
    rw [List.cons_append, List.length_cons, Nat.succ_add, List.drop_succ_cons]
    exact ih

theorem take_append_len {α : Type} (l₁ l₂ : List α) (k : Nat) :
    (l₁ ++ l₂).take (l₁.length + k) = l₁ ++ l₂.take k := by
  induction l₁ with
  | nil => simp
  | cons a as ih =>
    rw [List.cons_append, List.length_cons, Nat.succ_add, List.take_succ_cons,
      List.cons_append, ih]

theorem basename_joinPath (a b : String) (hb : ∀ c ∈ b.data, c ≠ '/') :
    basename (joinPath a b) = b := by
  have hdata : (joinPath a b).data = a.data ++ '/' :: b.data := by
    simp [joinPath, String.data_append]
  have hlast : lastIdxOf '/' ('/' :: b.data) = some 0 := by
    unfold lastIdxOf
    rw [lastIdxOf_eq_none hb]
    simp
  unfold basename
  rw [hdata, lastIdxOf_append_some a.data hlast]
  show String.mk ((a.data ++ '/' :: b.data).drop (a.data.length + 0 + 1)) = b
  have hdrop : (a.data ++ '/' :: b.data).drop (a.data.length + 0 + 1) = b.data := by
    rw [Nat.add_zero, drop_append_len a.data ('/' :: b.data) 1]
    rfl
  rw [hdrop]

theorem data_underscore_append (ts fn : String) :
    (ts ++ "_" ++ fn).data = ts.data ++ '_' :: fn.data := by
  simp [String.data_append]

theorem splitextExt_stored (ts fn : String) (hts : ∀ c ∈ ts.data, c ≠ '.') :
    splitextExt (ts ++ "_" ++ fn) = rawExt fn := by
  unfold splitextExt rawExt
  rw [data_underscore_append]
  cases hidx : lastIdxOf '.' fn.data with
  | none =>
    have h1 : lastIdxOf '.' ('_' :: fn.data) = none := by
      unfold lastIdxOf
      rw [hidx]
      simp
    rw [lastIdxOf_append_none ts.data h1, lastIdxOf_eq_none hts]
  | some i =>
    have h1 : lastIdxOf '.' ('_' :: fn.data) = some (i + 1) := by
      unfold lastIdxOf
      rw [hidx]
    simp only [lastIdxOf_append_some ts.data h1]
    have htake : (ts.data ++ '_' :: fn.data).take (ts.data.length + (i + 1)) =
        ts.data ++ '_' :: fn.data.take i := by
      rw [take_append_len, List.take_succ_cons]
    have hany : ((ts.data ++ '_' :: fn.data).take (ts.data.length + (i + 1))).any
        (fun a => a ≠ '.') = true := by
      rw [htake, List.any_eq_true]
      exact ⟨'_', List.mem_append_right _ (List.mem_cons_self _ _), by decide⟩
    rw [if_pos hany]
    have hdrop : (ts.data ++ '_' :: fn.data).drop (ts.data.length + (i + 1)) =
        fn.data.drop i := by
      rw [drop_append_len, List.drop_succ_cons]
    rw [hdrop]

theorem wf_fsMakedirs (fs : FS) (u : String) (h : FS.wf fs = true) :
    FS.wf (fsMakedirs fs u) = true := by
  unfold fsMakedirs
  by_cases hc : fs.users.any (fun p => p.1 = u) = true
  · rw [if_pos hc]
    exact h
  · rw [if_neg hc]
    unfold FS.wf at h ⊢
    simp only [List.all_append, h, Bool.true_and]
    simp

theorem wf_fsWrite (fs : FS) (u name : String) (content : Bytes)
    (h : FS.wf fs = true) (hn : ∀ c ∈ name.data, c ≠ '/') :
    FS.wf (fsWrite fs u name content) = true := by
  unfold FS.wf at h ⊢
  unfold fsWrite
  simp only [List.all_eq_true] at h ⊢
  rintro q hq
  simp only [List.mem_map] at hq
  obtain ⟨p, hp, rfl⟩ := hq
  by_cases hpu : p.1 = u
  · rw [if_pos hpu]
    intro f hf
    have hfile : f ∈ dirWrite p.2 name content := hf
    unfold dirWrite at hfile
    by_cases hd : p.2.any (fun g => g.name = name) = true
    · rw [if_pos hd] at hfile
      simp only [List.mem_map] at hfile
      obtain ⟨g, hg, rfl⟩ := hfile
      by_cases hgn : g.name = name
      · rw [if_pos hgn]
        simp only [List.all_eq_true]
        intro c hc
        simpa using hn c hc
      · rw [if_neg hgn]
        exact h p hp g hg
    · rw [if_neg hd] at hfile
      rcases List.mem_append.mp hfile with hfm | hfm
      · exact h p hp f hfm
      · have : f = ⟨name, content⟩ := by simpa using hfm
        subst this
        simp only [List.all_eq_true]
        intro c hc
        simpa using hn c hc
  · rw [if_neg hpu]
    exact h p hp

theorem mem_userImagePaths_ext {fs : FS} {v p : String} (hwf : FS.wf fs = true)
    (hp : p ∈ userImagePaths fs v) :
    lowerStr (splitextExt (basename p)) ∈ image_extensions := by
  unfold userImagePaths at hp
  cases hd : lookupDir fs v with
  | none =>
    rw [hd] at hp
    simp at hp
  | some d =>
    rw [hd] at hp
    simp only [List.mem_map, List.mem_filter] at hp
    obtain ⟨f, ⟨hfd, hfext⟩, rfl⟩ := hp
    have hext := of_decide_eq_true hfext
    have hq : ∃ q ∈ fs.users, q.2 = d := by
      unfold lookupDir at hd
      obtain ⟨q, hfind, hsnd⟩ := Option.map_eq_some'.mp hd
      exact ⟨q, List.mem_of_find?_eq_some hfind, hsnd⟩
    obtain ⟨q, hqmem, hqd⟩ := hq
    have hslash : ∀ c ∈ f.name.data, c ≠ '/' := by
      unfold FS.wf at hwf
      simp only [List.all_eq_true] at hwf
      have h2 := hwf q hqmem f (hqd ▸ hfd)
      intro c hc
      simpa using h2 c hc
    rw [basename_joinPath _ _ hslash]
    exact hext

theorem mem_get_user_images_ext {fs : FS} {u p : String} (hwf : FS.wf fs = true)
    (hp : p ∈ get_user_images fs u) :
    lowerStr (splitextExt (basename p)) ∈ image_extensions := by
  unfold get_user_images at hp
  simp only [List.mem_insertionSort] at hp
  by_cases hA : u = ALL_USERS_OPTION
  · rw [if_pos hA] at hp
    simp only [List.mem_flatMap] at hp
    obtain ⟨v, _, hpv⟩ := hp
    exact mem_userImagePaths_ext hwf hpv
  · rw [if_neg hA] at hp
    by_cases hE : u = ""
    · rw [if_neg (by simpa using hE)] at hp
      simp at hp
    · rw [if_pos (by simpa using hE)] at hp
      exact mem_userImagePaths_ext hwf hp

/-- C9: every path `get_user_images` returns has a lower-cased `splitext`
extension in `image_extensions`; and an ingest accepted on content type
alone whose original filename's extension (the suffix from its last dot)
is not an image extension is persisted on disk but never appears in any
`get_user_images` result.  (Server timestamps from
`strftime("%Y%m%d_%H%M%S%f")` contain no `/` or `.`, and real filenames
contain no `/`, as the hypotheses record.) -/
theorem C9_extension_filter (fs : FS) (u : String) (st : ServerState) (now : Nat)
    (ts user ct fn : String) (content : Bytes)
    (hwf : FS.wf fs = true) (hwf2 : FS.wf st.fs = true)
    (hct : beginsWith "image/".data ct.data = true)
    (hts : ∀ c ∈ ts.data, c ≠ '/' ∧ c ≠ '.')
    (hfn : ∀ c ∈ fn.data, c ≠ '/')
    (hext : lowerStr (rawExt fn) ∉ image_extensions) :
    (∀ p ∈ get_user_images fs u, lowerStr (splitextExt (basename p)) ∈ image_extensions) ∧
    fileContent (api_upload_image st now ts user ct fn content none).state.fs user
      (ts ++ "_" ++ fn) = some content ∧
    ∀ v, joinPath (joinPath UPLOAD_DIR user) (ts ++ "_" ++ fn) ∉
      get_user_images (api_upload_image st now ts user ct fn content none).state.fs v := by
  have hname : ∀ c ∈ (ts ++ "_" ++ fn).data, c ≠ '/' := by
    rw [data_underscore_append]
    intro c hc
    rcases List.mem_append.mp hc with hc | hc
    · exact (hts c hc).1
    · rcases List.mem_cons.mp hc with rfl | hc
      · decide
      · exact hfn c hc
  have hstate : (api_upload_image st now ts user ct fn content none).state.fs =
      fsWrite (fsMakedirs st.fs user) user (ts ++ "_" ++ fn) content := by
    unfold api_upload_image
    rw [if_neg (by simp [hct])]
    rfl
  have hwf3 : FS.wf (api_upload_image st now ts user ct fn content none).state.fs
      = true := by
    rw [hstate]
    exact wf_fsWrite _ _ _ _ (wf_fsMakedirs _ _ hwf2) hname
  refine ⟨fun p hp => mem_get_user_images_ext hwf hp, ?_, ?_⟩
  · rw [hstate]
    exact fileContent_fsWrite_self _ _ _ _ (fsMakedirs_any st.fs user)
  · intro v hmem
    have hx := mem_get_user_images_ext hwf3 hmem
    rw [basename_joinPath _ _ hname,
      splitextExt_stored ts fn (fun c hc => (hts c hc).2)] at hx
    exact hext hx

/-- Witness for C9: uploading `a.txt` under content type `image/png`
stores the bytes but keeps the file out of every listing. -/
theorem C9_extension_filter_witness :
    FS.wf ⟨[("alice", [⟨"1_a.png", []⟩])]⟩ = true ∧
    lowerStr (rawExt "a.txt") ∉ image_extensions ∧
    fileContent (api_upload_image ⟨⟨[]⟩, 0⟩ 7 "20240101" "bob" "image/png" "a.txt"
        [1, 2] none).state.fs "bob" ("20240101" ++ "_" ++ "a.txt") = some [1, 2] ∧
    joinPath (joinPath UPLOAD_DIR "bob") ("20240101" ++ "_" ++ "a.txt") ∉
      get_user_images (api_upload_image ⟨⟨[]⟩, 0⟩ 7 "20240101" "bob" "image/png" "a.txt"
        [1, 2] none).state.fs "bob" :=
  ⟨by decide, by decide,
   (C9_extension_filter ⟨[("alice", [⟨"1_a.png", []⟩])]⟩ "alice" ⟨⟨[]⟩, 0⟩ 7 "20240101"
      "bob" "image/png" "a.txt" [1, 2] (by decide) (by decide) (by decide) (by decide)
      (by decide) (by decide)).2.1,
   (C9_extension_filter ⟨[("alice", [⟨"1_a.png", []⟩])]⟩ "alice" ⟨⟨[]⟩, 0⟩ 7 "20240101"
      "bob" "image/png" "a.txt" [1, 2] (by decide) (by decide) (by decide) (by decide)
      (by decide) (by decide)).2.2 "bob"⟩
